import Mathlib

/-!
Shallow embedding of `src/trainer.py` (class `Trainer`) of the
TransformerWorldmodel repository, together with theorems settling the
spec claims about it.

Modelling conventions:
* Python floats are modelled as `ℚ` (the claims about loss aggregation are
  stated in exact arithmetic), Python ints as `ℕ` or `ℤ`.
* The external collaborators (dataset sampling/traversal, the neural
  components' `compute_loss`, the optimizer internals, `ActorCritic.imagine`,
  `Episode.compute_metrics`) are out of scope per the spec; they enter the
  embedding as function parameters, or as definitions explicitly marked
  `Modelled from the spec:` when the repository code defining them is not
  available.
* Fallible operations (`torch.load` on a missing file, `shutil.copytree`
  onto an existing destination, Python division by zero) are modelled with
  `Option` / `Except`, with a fault parameter where a claim is about
  mid-operation failure.
-/

namespace TrainerModel

/-- A value emitted to the metrics sink (`wandb.log`): a scalar, an integer
(episode identifiers), or a `wandb.Histogram` over action tokens with a
bin count. -/
inductive MetricValue where
  | num : ℚ → MetricValue
  | int : ℤ → MetricValue
  | hist : List ℕ → ℕ → MetricValue
  deriving DecidableEq, Repr

/-- A metrics dictionary, as passed to `wandb.log` (insertion-ordered). -/
abbrev MetricDict := List (String × MetricValue)

/-! ### `Trainer.eval_component` (src/trainer.py lines 226-246) -/

/-- One step of the evaluation loop of `Trainer.eval_component`: add the
batch's total loss, add every named sub-loss into the `defaultdict(float)`
(modelled as a total function that is `0` on unseen keys), bump `steps`. -/
def eval_step {B : Type} (lossOf : B → ℚ) (subOf : String → B → ℚ)
    (acc : ℚ × (String → ℚ) × ℕ) (b : B) : ℚ × (String → ℚ) × ℕ :=
  (acc.1 + lossOf b, fun k => acc.2.1 k + subOf k b, acc.2.2 + 1)

/-- The loop of `Trainer.eval_component`: the running `loss_total_epoch`,
the intermediate-loss `defaultdict`, and the `steps` counter incremented
once per traversed batch. -/
def eval_fold {B : Type} (lossOf : B → ℚ) (subOf : String → B → ℚ)
    (batches : List B) : ℚ × (String → ℚ) × ℕ :=
  batches.foldl (eval_step lossOf subOf) (0, fun _ => 0, 0)

/-- Embedding of `Trainer.eval_component`.  `batches` is the sequence of
batches yielded by `self.test_dataset.traverse(...)` (an external
collaborator), `lossOf b` is `component.compute_loss(b, **kwargs).loss_total`
and `subOf n b` the named intermediate loss `n` of that bundle; `subNames`
is the bundle's (fixed) key set.  After the loop every accumulated value is
divided by `steps`; when the traversal yielded zero batches this division
is a Python `ZeroDivisionError`, modelled as `Except.error ()`. -/
def eval_component {B : Type} (name : String) (lossOf : B → ℚ)
    (subNames : List String) (subOf : String → B → ℚ) (batches : List B) :
    Except Unit (List (String × ℚ)) :=
  let r := eval_fold lossOf subOf batches
  if r.2.2 = 0 then Except.error ()
  else
    Except.ok ((name ++ "/eval/total_loss", r.1 / (r.2.2 : ℚ)) ::
      subNames.map fun n => (name ++ "/eval/" ++ n, r.2.1 n / (r.2.2 : ℚ)))

/-! ### `Trainer.train_component` (src/trainer.py lines 174-198) -/

/-- The running-metric accumulation of `Trainer.train_component` for one
reported value stream: for each of `S = steps_per_epoch` optimizer steps and
each of `g = grad_acc_steps` accumulation sub-steps, the drawn batch's loss
`v i j` is first divided by `grad_acc_steps` (the loss bundle is scaled by
`1/grad_acc_steps`; `LossWithIntermediateLosses.__truediv__` is Modelled
from the spec: it scales the total loss and every named sub-loss, the class
itself not being part of the orchestrator source) and the scaled value is
then added to the epoch accumulator divided by `steps_per_epoch`. -/
def accum (v : ℕ → ℕ → ℚ) (S g : ℕ) : ℚ :=
  (List.range S).foldl
    (fun acc i => (List.range g).foldl
      (fun a j => a + v i j / (g : ℚ) / (S : ℚ)) acc) 0

/-- Embedding of `Trainer.train_component`.  `name` is the component's
stable string identity (`str(component)`), `lossAt i j` is the total loss of
the batch drawn at step `i`, sub-step `j` (the composite of
`train_dataset.sample_batch` and `component.compute_loss`, both external),
`subAt n i j` the named sub-loss `n` of that batch, `optStep` the effect of
one `optimizer.step()` on the optimizer state (gradient contents are out of
scope).  It returns the metrics dictionary
`{name/train/total_loss, name/train/<sub>...}` and the optimizer state after
the `S` steps. -/
def train_component {O : Type} (name : String) (lossAt : ℕ → ℕ → ℚ)
    (subNames : List String) (subAt : String → ℕ → ℕ → ℚ)
    (S g : ℕ) (optStep : O → O) (opt : O) : List (String × ℚ) × O :=
  ((name ++ "/train/total_loss", accum lossAt S g) ::
      subNames.map (fun n => (name ++ "/train/" ++ n, accum (subAt n) S g)),
    optStep^[S] opt)

/-! ### `Trainer.train_agent` (src/trainer.py lines 148-172) -/

/-- Everything `Trainer.train_agent` needs about one component: its
training configuration (`start_after_epochs`, `steps_per_epoch`,
`grad_acc_steps`) and the abstracted loss streams and optimizer step of
`train_component`. -/
structure ComponentTrainArgs (O : Type) where
  start_after_epochs : ℕ
  steps_per_epoch : ℕ
  grad_acc_steps : ℕ
  name : String
  lossAt : ℕ → ℕ → ℚ
  subNames : List String
  subAt : String → ℕ → ℕ → ℚ
  optStep : O → O

/-- The observable outcome of `Trainer.train_agent` for one epoch: the
three per-component metric dictionaries (`{}` when the component is gated
off) and the three optimizer states after the epoch. -/
structure TrainAgentResult (O : Type) where
  metrics_tokenizer : List (String × ℚ)
  metrics_world_model : List (String × ℚ)
  metrics_actor_critic : List (String × ℚ)
  optimizer_tokenizer : O
  optimizer_world_model : O
  optimizer_actor_critic : O

/-- Embedding of `Trainer.train_agent`: each component is trained only when
`epoch > start_after_epochs` (otherwise its metrics dictionary stays `{}`
and its optimizer is untouched); the eval-mode toggles after each phase do
not affect the modelled state. -/
def train_agent {O : Type} (tok wm ac : ComponentTrainArgs O) (epoch : ℕ)
    (oT oW oA : O) : TrainAgentResult O :=
  let rT := if tok.start_after_epochs < epoch
    then train_component tok.name tok.lossAt tok.subNames tok.subAt
      tok.steps_per_epoch tok.grad_acc_steps tok.optStep oT
    else ([], oT)
  let rW := if wm.start_after_epochs < epoch
    then train_component wm.name wm.lossAt wm.subNames wm.subAt
      wm.steps_per_epoch wm.grad_acc_steps wm.optStep oW
    else ([], oW)
  let rA := if ac.start_after_epochs < epoch
    then train_component ac.name ac.lossAt ac.subNames ac.subAt
      ac.steps_per_epoch ac.grad_acc_steps ac.optStep oA
    else ([], oA)
  ⟨rT.1, rW.1, rA.1, rT.2, rW.2, rA.2⟩

/-- The single dictionary `train_agent` returns to the epoch loop:
`{'epoch': epoch, **metrics_tokenizer, **metrics_world_model,
**metrics_actor_critic}` (the three key sets are disjoint by their
component-name namespacing, so the dict merge is concatenation). -/
def train_agent_log {O : Type} (tok wm ac : ComponentTrainArgs O) (epoch : ℕ)
    (oT oW oA : O) : List (String × ℚ) :=
  ("epoch", (epoch : ℚ)) ::
    ((train_agent tok wm ac epoch oT oW oA).metrics_tokenizer ++
     (train_agent tok wm ac epoch oT oW oA).metrics_world_model ++
     (train_agent tok wm ac epoch oT oW oA).metrics_actor_critic)

/-! ### Checkpoint management (src/trainer.py lines 267-299) -/

/-- The checkpoint directory's contents (`self.ckpt_dir`): each artifact is
`none` while the corresponding file has never been written.  `A` is the type
of the combined agent `state_dict`, `Op` an optimizer `state_dict`, `D` the
training dataset's on-disk state (the `dataset/` subtree owned by the Batch
Source). -/
structure CkptDir (A Op D : Type) where
  last_pt : Option A
  epoch_pt : Option ℕ
  optimizer_pt : Option (Op × Op × Op)
  dataset_dir : Option D
  num_seen_pt : Option ℕ
  deriving DecidableEq, Repr

/-- The in-memory training state that `Trainer._save_checkpoint` persists
and `Trainer.load_checkpoint` restores. -/
structure TrainerCkpt (A Op D : Type) where
  agent : A
  optimizer_tokenizer : Op
  optimizer_world_model : Op
  optimizer_actor_critic : Op
  train_dataset : D
  num_seen_episodes_test : ℕ
  evaluation_should : Bool
  deriving DecidableEq, Repr

/-- The sequence of writes performed by `Trainer._save_checkpoint`, in
source order: `last.pt` always; then, unless `save_agent_only`, `epoch.pt`,
`optimizer.pt`, the dataset subtree (`update_disk_checkpoint`, modelled as
storing the Batch Source state, per its external contract), and — only if
evaluation is enabled — `num_seen_episodes_test_dataset.pt`. -/
def ckpt_writes {A Op D : Type} (tr : TrainerCkpt A Op D) (epoch : ℕ)
    (save_agent_only : Bool) : List (CkptDir A Op D → CkptDir A Op D) :=
  (fun d => { d with last_pt := some tr.agent }) ::
    (if save_agent_only then [] else
      (fun d => { d with epoch_pt := some epoch }) ::
      (fun d =>
        { d with optimizer_pt := some (tr.optimizer_tokenizer,
            tr.optimizer_world_model, tr.optimizer_actor_critic) }) ::
      (fun d => { d with dataset_dir := some tr.train_dataset }) ::
      (if tr.evaluation_should
        then [fun d => { d with num_seen_pt := some tr.num_seen_episodes_test }]
        else []))

/-- Run a write sequence against the checkpoint directory with fault
injection: `fail = some k` means the `k`-th write raises before taking
effect (all earlier writes have already been applied); the Boolean reports
whether an exception was raised. -/
def apply_writes {A Op D : Type} :
    List (CkptDir A Op D → CkptDir A Op D) → Option ℕ → CkptDir A Op D →
    CkptDir A Op D × Bool
  | [], _, d => (d, false)
  | _ :: _, some 0, d => (d, true)
  | w :: ws, some (k + 1), d => apply_writes ws (some k) (w d)
  | w :: ws, none, d => apply_writes ws none (w d)

/-- The filesystem as `save_checkpoint` sees it: the primary checkpoint
directory, and the `checkpoints_tmp` backup directory (a fixed
working-directory-relative path, the same location for every run), `none`
when absent. -/
structure CkptFS (A Op D : Type) where
  ckpt : CkptDir A Op D
  tmp_backup : Option (CkptDir A Op D)
  deriving DecidableEq, Repr

/-- The relative path `Trainer.save_checkpoint` copies the backup to:
`Path('checkpoints_tmp')`, resolved against the process working directory
and not against `self.base_output`. -/
def tmp_checkpoint_dir : String := "checkpoints_tmp"

/-- How `Trainer.save_checkpoint` can terminate. -/
inductive SaveOutcome where
  | ok
  | fileExistsError
  | writeError
  deriving DecidableEq, Repr

/-- `shutil.copytree(src=self.ckpt_dir, dst=tmp, ignore=ignore_patterns('dataset'))`:
a copy of the checkpoint directory without the `dataset` subtree. -/
def copy_without_dataset {A Op D : Type} (d : CkptDir A Op D) : CkptDir A Op D :=
  { d with dataset_dir := none }

/-- Embedding of `Trainer.save_checkpoint` (which wraps
`Trainer._save_checkpoint`): if `checkpoints_tmp` already exists,
`shutil.copytree` raises `FileExistsError` before anything is written;
otherwise the backup is created, the writes of `_save_checkpoint` run (with
fault injection `fail`), and `shutil.rmtree` removes the backup only when no
write raised. -/
def save_checkpoint {A Op D : Type} (tr : TrainerCkpt A Op D) (epoch : ℕ)
    (save_agent_only : Bool) (fail : Option ℕ) (fs : CkptFS A Op D) :
    CkptFS A Op D × SaveOutcome :=
  match fs.tmp_backup with
  | some _ => (fs, SaveOutcome.fileExistsError)
  | none =>
    let backup := copy_without_dataset fs.ckpt
    let r := apply_writes (ckpt_writes tr epoch save_agent_only) fail fs.ckpt
    if r.2 then ({ ckpt := r.1, tmp_backup := some backup }, SaveOutcome.writeError)
    else ({ ckpt := r.1, tmp_backup := none }, SaveOutcome.ok)

/-- The trainer state as rebuilt by `Trainer.load_checkpoint`:
`start_epoch = stored epoch + 1`, agent weights, the three optimizer
states, the restored training Batch Source, and (when evaluation is
enabled) the evaluation dataset's seen-episode count. -/
structure LoadedState (A Op D : Type) where
  start_epoch : ℕ
  agent : A
  optimizer_tokenizer : Op
  optimizer_world_model : Op
  optimizer_actor_critic : Op
  train_dataset : D
  num_seen_episodes_test : Option ℕ
  deriving DecidableEq, Repr

/-- Embedding of `Trainer.load_checkpoint`: each `torch.load` /
`load_disk_checkpoint` raises when its artifact is missing, modelled by the
`Option` bind; reads happen in source order (epoch, weights, optimizers,
dataset, then — only if evaluation is enabled — the seen-episode count). -/
def load_checkpoint {A Op D : Type} (evaluation_should : Bool)
    (fs : CkptFS A Op D) : Option (LoadedState A Op D) := do
  let e ← fs.ckpt.epoch_pt
  let a ← fs.ckpt.last_pt
  let o ← fs.ckpt.optimizer_pt
  let ds ← fs.ckpt.dataset_dir
  let seen ← if evaluation_should then fs.ckpt.num_seen_pt.map some else some none
  pure ⟨e + 1, a, o.1, o.2.1, o.2.2, ds, seen⟩

/-! ### `Trainer.__init__` mode assertion (src/trainer.py lines 84-95) -/

/-- The two top-level mode switches read by `Trainer.__init__`:
`cfg.training_settings.should` and `cfg.evaluation_settings.should`. -/
structure TopLevelCfg where
  training_should : Bool
  evaluation_should : Bool
  deriving DecidableEq, Repr

/-- `Trainer.__init__` raises `AssertionError` at
`assert self.cfg.training_settings.should or self.cfg.evaluation_settings.should`. -/
inductive InitError where
  | assertionFailed
  deriving DecidableEq, Repr

/-- The resources `Trainer.__init__` constructs before the assertion: a
training environment/dataset/collector only when training is enabled, an
evaluation one only when evaluation is enabled. -/
structure TrainerResources where
  has_train_collector : Bool
  has_test_collector : Bool
  deriving DecidableEq, Repr

/-- Embedding of the construction phase of `Trainer.__init__`: the two
conditional resource blocks run, then the assertion fires when neither mode
is enabled — before `Trainer.run` (the epoch loop) can ever be called on
the constructed object. -/
def trainer_construct (cfg : TopLevelCfg) : Except InitError TrainerResources :=
  let res : TrainerResources := ⟨cfg.training_should, cfg.evaluation_should⟩
  if cfg.training_should || cfg.evaluation_should then Except.ok res
  else Except.error InitError.assertionFailed

/-! ### `Trainer.inspect_imagination` (src/trainer.py lines 248-265) -/

/-- Inputs of one `Trainer.inspect_imagination` call: the starting contexts
drawn by `test_dataset.sample_batch(batch_num_samples =
episode_manager_imagination.max_num_episodes, ...)` (contexts are opaque,
indexed by `ℕ`), the rollout horizon, the per-context per-timestep rollout
contents produced by the world model and policy (observation and action
tokens, scalar rewards, termination flags), the training actor-critic
`start_after_epochs` used in the identifier formula, and the action
vocabulary size used for the histogram. -/
structure ImaginationArgs where
  contexts : List ℕ
  horizon : ℕ
  obs_at : ℕ → ℕ → ℕ
  act_at : ℕ → ℕ → ℕ
  rew_at : ℕ → ℕ → ℚ
  end_at : ℕ → ℕ → Bool

  ac_start_after_epochs : ℕ
  act_vocab_size : ℕ

/-- The tensors returned by `ActorCritic.imagine`, already transposed to
batch-major as in the source's `zip` comment: one sequence per starting
context. -/
structure ImagineOutputs where
  observations : List (List ℕ)
  actions : List (List ℕ)
  rewards : List (List ℚ)
  ends : List (List Bool)

/-- Modelled from the spec: `ActorCritic.imagine` (models/actor_critic.py
is not part of the orchestrator source) runs a fixed-horizon imagined
rollout and produces, for each of the starting contexts, per-rollout
sequences of observations, actions, rewards and termination flags of
length `horizon`. -/
def imagine (im : ImaginationArgs) : ImagineOutputs :=
  ⟨im.contexts.map fun c => (List.range im.horizon).map (im.obs_at c),
   im.contexts.map fun c => (List.range im.horizon).map (im.act_at c),
   im.contexts.map fun c => (List.range im.horizon).map (im.rew_at c),
   im.contexts.map fun c => (List.range im.horizon).map (im.end_at c)⟩

/-- An `Episode` record as constructed in `inspect_imagination`:
`Episode(o, a, r, d, torch.ones_like(d))` — the validity mask is all-true
with the length of the termination-flag sequence. -/
structure Episode where
  observations : List ℕ
  actions : List ℕ
  rewards : List ℚ
  ends : List Bool
  mask_padding : List Bool
  deriving DecidableEq, Repr

/-- Python's `zip` over four equal-batch tensors, truncating at the
shortest. -/
def zip4 {α β γ δ : Type} :
    List α → List β → List γ → List δ → List (α × β × γ × δ)
  | a :: as, b :: bs, c :: cs, d :: ds => (a, b, c, d) :: zip4 as bs cs ds
  | _, _, _, _ => []

/-- Embedding of `Trainer.inspect_imagination`.  It returns the episode
records handed to `episode_manager_imagination.save(episode, episode_id,
epoch)` (first component) and the `to_log` list of per-episode metric
dictionaries the function builds and returns (second component).  The
identifier is `(epoch - 1 - training_settings.actor_critic.start_after_epochs)
* outputs.observations.size(0) + i`, Python int arithmetic modelled in `ℤ`.
`Episode.compute_metrics` is Modelled from the spec: episode.py is not part
of the orchestrator source; per the spec it yields the per-episode
diagnostic return and length. -/
def inspect_imagination (im : ImaginationArgs) (epoch : ℕ) :
    List (ℤ × Episode × ℕ) × List MetricDict :=
  let outputs := imagine im
  let n := outputs.observations.length
  let saves := (zip4 outputs.observations outputs.actions outputs.rewards
      outputs.ends).enum.map fun p =>
    let episode : Episode :=
      ⟨p.2.1, p.2.2.1, p.2.2.2.1, p.2.2.2.2, List.replicate p.2.2.2.2.length true⟩
    let episode_id : ℤ :=
      ((epoch : ℤ) - 1 - (im.ac_start_after_epochs : ℤ)) * (n : ℤ) + (p.1 : ℤ)
    (episode_id, episode, epoch)
  let to_log := saves.map fun s =>
    [("imagination/episode_return", MetricValue.num s.2.1.rewards.sum),
     ("imagination/episode_length", MetricValue.int (s.2.1.actions.length : ℤ)),
     ("imagination/episode_num", MetricValue.int s.1),
     ("imagination/action_histogram", MetricValue.hist s.2.1.actions im.act_vocab_size)]
  (saves, to_log)

/-! ### `Trainer.eval_agent` (src/trainer.py lines 200-223) and the epoch
loop's `to_log` (lines 120-143) -/

/-- The per-component knobs read from `cfg.evaluation_settings` by
`eval_agent`, plus the epoch-loop evaluation interval
`cfg.evaluation_settings.every`. -/
structure EvalSettingsCfg where
  tokenizer_start_after_epochs : ℕ
  world_model_start_after_epochs : ℕ
  ac_start_after_epochs : ℕ
  every : ℕ
  save_reconstructions : Bool

/-- The abstracted inputs of one `eval_component` call: the traversal's
batches and the component's loss streams (see `eval_component`). -/
structure EvalComponentArgs (B : Type) where
  lossOf : B → ℚ
  subNames : List String
  subOf : String → B → ℚ
  batches : List B

/-- Embedding of `Trainer.eval_agent`.  Tokenizer and world-model
evaluation run only past their `start_after_epochs` gates; past the
actor-critic gate `inspect_imagination(epoch)` is called but its returned
`to_log` list is not captured — only its episode-persistence side effect
remains (second component of the result).  The `save_reconstructions`
branch only writes media files and emits no metrics, so it does not appear
in the returned state.  The function returns
`[metrics_tokenizer, metrics_world_model]` to the epoch loop. -/
def eval_agent {B : Type} (cfg : EvalSettingsCfg) (epoch : ℕ)
    (tok wm : EvalComponentArgs B) (im : ImaginationArgs) :
    Except Unit (List MetricDict × List (ℤ × Episode × ℕ)) :=
  match (if cfg.tokenizer_start_after_epochs < epoch
      then eval_component "tokenizer" tok.lossOf tok.subNames tok.subOf tok.batches
      else Except.ok []) with
  | Except.error e => Except.error e
  | Except.ok metrics_tokenizer =>
    match (if cfg.world_model_start_after_epochs < epoch
        then eval_component "world_model" wm.lossOf wm.subNames wm.subOf wm.batches
        else Except.ok []) with
    | Except.error e => Except.error e
    | Except.ok metrics_world_model =>
      let inspected := if cfg.ac_start_after_epochs < epoch
        then inspect_imagination im epoch else ([], [])
      Except.ok
        ([metrics_tokenizer.map fun kv => (kv.1, MetricValue.num kv.2),
          metrics_world_model.map fun kv => (kv.1, MetricValue.num kv.2)],
         inspected.1)

/-- Embedding of one iteration of the epoch loop in `Trainer.run`, as far
as the metrics it passes to `wandb.log`: the training branch's collector
output and `train_agent` dictionary enter as opaque parameters
(`collect_train_log`, `train_log`), the evaluation branch runs when
evaluation is enabled and `epoch % cfg.every == 0` (contributing the test
collector's output and `eval_agent`'s list), and the wall-clock `duration`
entry is appended last. -/
def epoch_to_log {B : Type} (training_should evaluation_should : Bool)
    (collect_train_log train_log collect_test_log : List MetricDict)
    (cfg : EvalSettingsCfg) (epoch : ℕ) (tok wm : EvalComponentArgs B)
    (im : ImaginationArgs) (duration : ℚ) : Except Unit (List MetricDict) :=
  let part_train := if training_should then collect_train_log ++ train_log else []
  match (if evaluation_should && epoch % cfg.every == 0
      then (eval_agent cfg epoch tok wm im).map fun r => collect_test_log ++ r.1
      else Except.ok []) with
  | Except.error e => Except.error e
  | Except.ok part_eval =>
    Except.ok (part_train ++ part_eval ++
      [[("duration", MetricValue.num duration)]])

/-! ### Small concrete instances, used to evaluate the model on explicit
inputs -/

/-- A one-context imagination scenario: horizon 0, all-zero rollout,
`training_settings.actor_critic.start_after_epochs = 0`, action vocabulary
of size 2. -/
def imArgsOne : ImaginationArgs :=
  ⟨[0], 0, fun _ _ => 0, fun _ _ => 0, fun _ _ => 0, fun _ _ => false, 0, 2⟩

/-- A two-context imagination scenario with
`training_settings.actor_critic.start_after_epochs = 1`. -/
def imArgsTwo : ImaginationArgs :=
  ⟨[0, 1], 2, fun c t => c + t, fun c _ => c, fun _ _ => 1, fun _ _ => false, 1, 3⟩

/-- Evaluation settings whose tokenizer and world-model gates are still
closed at epoch 1 while the actor-critic gate is open, with evaluation
every epoch. -/
def evalCfgOne : EvalSettingsCfg := ⟨10, 10, 0, 1, false⟩

/-- Trivial evaluation-component inputs (empty traversal never reached
because the component is gated off in the scenarios that use this). -/
def evalArgsNone : EvalComponentArgs ℕ := ⟨fun _ => 0, [], fun _ _ => 0, []⟩

/-- A concrete in-memory training state over `A = Op = D = ℕ`. -/
def trOne : TrainerCkpt ℕ ℕ ℕ := ⟨1, 2, 3, 4, 5, 6, true⟩

/-- An empty checkpoint directory. -/
def ckptEmpty : CkptDir ℕ ℕ ℕ := ⟨none, none, none, none, none⟩

/-- A filesystem with no leftover `checkpoints_tmp` backup. -/
def fsClean : CkptFS ℕ ℕ ℕ := ⟨ckptEmpty, none⟩

/-- A filesystem on which a backup from an interrupted save is still
present. -/
def fsStale : CkptFS ℕ ℕ ℕ := ⟨ckptEmpty, some ckptEmpty⟩

/-- A concrete per-component training configuration whose
`start_after_epochs` gate is still closed at epoch 1. -/
def ctaOne : ComponentTrainArgs ℕ :=
  ⟨5, 2, 1, "tokenizer", fun _ _ => 1, [], fun _ _ _ => 0, fun o => o + 1⟩

/-! ### Theorems -/

theorem eval_fold_spec {B : Type} (lossOf : B → ℚ) (subOf : String → B → ℚ)
    (batches : List B) (acc : ℚ × (String → ℚ) × ℕ) :
    (batches.foldl (eval_step lossOf subOf) acc).1 =
        acc.1 + (batches.map lossOf).sum ∧
      (∀ k, (batches.foldl (eval_step lossOf subOf) acc).2.1 k =
        acc.2.1 k + (batches.map (subOf k)).sum) ∧
      (batches.foldl (eval_step lossOf subOf) acc).2.2 =
        acc.2.2 + batches.length := by
  induction batches generalizing acc with
  | nil => simp
  | cons b bs ih =>
    simp only [List.foldl_cons, List.map_cons, List.sum_cons, List.length_cons]
    refine ⟨?_, fun k => ?_, ?_⟩
    · rw [(ih (eval_step lossOf subOf acc b)).1]; simp [eval_step]; try ring
    · rw [(ih (eval_step lossOf subOf acc b)).2.1 k]; simp [eval_step]; try ring
    · rw [(ih (eval_step lossOf subOf acc b)).2.2]; simp [eval_step]; try omega

theorem eval_fold_total {B : Type} (lossOf : B → ℚ) (subOf : String → B → ℚ)
    (batches : List B) :
    (eval_fold lossOf subOf batches).1 = (batches.map lossOf).sum := by
  have h := (eval_fold_spec lossOf subOf batches (0, fun _ => 0, 0)).1
  simpa [eval_fold] using h

theorem eval_fold_sub {B : Type} (lossOf : B → ℚ) (subOf : String → B → ℚ)
    (batches : List B) (k : String) :
    (eval_fold lossOf subOf batches).2.1 k = (batches.map (subOf k)).sum := by
  have h := (eval_fold_spec lossOf subOf batches (0, fun _ => 0, 0)).2.1 k
  simpa [eval_fold] using h

theorem eval_fold_steps {B : Type} (lossOf : B → ℚ) (subOf : String → B → ℚ)
    (batches : List B) :
    (eval_fold lossOf subOf batches).2.2 = batches.length := by
  have h := (eval_fold_spec lossOf subOf batches (0, fun _ => 0, 0)).2.2
  simpa [eval_fold] using h

/-- Claim C7: every loss `eval_component` reports — the total loss and each
named sub-loss — is the sum accumulated over the batches actually yielded
by the evaluation traversal divided by the number of batches actually
traversed (no configured step count appears anywhere). -/
theorem eval_component_divides_by_traversed {B : Type} (name : String)
    (lossOf : B → ℚ) (subNames : List String) (subOf : String → B → ℚ)
    (batches : List B) (h : batches ≠ []) :
    eval_component name lossOf subNames subOf batches =
      Except.ok ((name ++ "/eval/total_loss",
          (batches.map lossOf).sum / (batches.length : ℚ)) ::
        subNames.map fun n =>
          (name ++ "/eval/" ++ n,
            (batches.map (subOf n)).sum / (batches.length : ℚ))) := by
  have hne : batches.length ≠ 0 := fun hl => h (List.eq_nil_of_length_eq_zero hl)
  simp only [eval_component, eval_fold_total, eval_fold_sub, eval_fold_steps]
  rw [if_neg hne]

/-- Witness for C7: a two-batch traversal with losses `3` and `5` and a
constant sub-loss `1`. -/
theorem eval_component_divides_by_traversed_witness :
    eval_component "tokenizer" (fun b : ℕ => (b : ℚ)) ["x"] (fun _ _ => 1)
        [3, 5] =
      Except.ok (("tokenizer" ++ "/eval/total_loss",
          (([3, 5] : List ℕ).map fun b : ℕ => (b : ℚ)).sum /
            (([3, 5] : List ℕ).length : ℚ)) ::
        ["x"].map fun n =>
          ("tokenizer" ++ "/eval/" ++ n,
            (([3, 5] : List ℕ).map ((fun _ _ => 1 : String → ℕ → ℚ) n)).sum /
              (([3, 5] : List ℕ).length : ℚ))) :=
  eval_component_divides_by_traversed "tokenizer" (fun b : ℕ => (b : ℚ))
    ["x"] (fun _ _ => 1) [3, 5] (by decide)

/-- Claim C9: `eval_component` returns a metrics mapping exactly when the
evaluation traversal yields at least one batch; with zero batches the final
averaging divides by zero and the call raises (`ZeroDivisionError`) instead
of returning metrics. -/
theorem eval_component_ok_iff_nonempty_traversal {B : Type} (name : String)
    (lossOf : B → ℚ) (subNames : List String) (subOf : String → B → ℚ)
    (batches : List B) :
    ((eval_component name lossOf subNames subOf batches).isOk = true) ↔
      batches ≠ [] := by
  rcases batches with _ | ⟨b, bs⟩ <;>
    simp [eval_component, eval_fold_steps, Except.isOk, Except.toBool]

theorem foldl_add_map {α : Type} (f : α → ℚ) (l : List α) (a : ℚ) :
    l.foldl (fun acc x => acc + f x) a = a + (l.map f).sum := by
  induction l generalizing a with
  | nil => simp
  | cons x xs ih => simp [ih]; ring

theorem accum_eq_sum (v : ℕ → ℕ → ℚ) (S g : ℕ) :
    accum v S g = ((List.range S).map fun i =>
      ((List.range g).map fun j => v i j / (g : ℚ) / (S : ℚ)).sum).sum := by
  unfold accum
  simp only [foldl_add_map]
  simp

theorem sum_map_div {α : Type} (l : List α) (f : α → ℚ) (r : ℚ) :
    (l.map fun x => f x / r).sum = (l.map f).sum / r := by
  induction l with
  | nil => simp
  | cons x xs ih => simp [ih, add_div]

theorem accum_const_substeps (v : ℕ → ℕ → ℚ) (c : ℕ → ℚ) (S g : ℕ)
    (hg : 0 < g) (h : ∀ i < S, ∀ j < g, v i j = c i) :
    accum v S g = ((List.range S).map c).sum / (S : ℚ) := by
  rw [accum_eq_sum]
  have hg0 : (g : ℚ) ≠ 0 := Nat.cast_ne_zero.mpr hg.ne'
  have hinner : ∀ i ∈ List.range S,
      ((List.range g).map fun j => v i j / (g : ℚ) / (S : ℚ)).sum =
        c i / (S : ℚ) := by
    intro i hi
    have hiS : i < S := List.mem_range.mp hi
    have hmap : ((List.range g).map fun j => v i j / (g : ℚ) / (S : ℚ)) =
        (List.range g).map fun _ => c i / (g : ℚ) / (S : ℚ) :=
      List.map_congr_left fun j hj => by
        rw [h i hiS j (List.mem_range.mp hj)]
    rw [hmap, List.map_const', List.sum_replicate, List.length_range,
      nsmul_eq_mul]
    field_simp
    exact mul_div_mul_left _ _ hg0
  rw [List.map_congr_left hinner, sum_map_div]

/-- Claim C5: with deterministic per-step losses `L_1..L_S` (each of the
`grad_acc_steps` sub-steps of step `i` yielding loss `L i`), the metrics
dictionary `train_component` reports contains total loss `(Σ L_i) / S` and,
for every named sub-loss, `(Σ subL_i) / S` — independent of the
gradient-accumulation factor `g`, which only scales gradients. -/
theorem train_component_loss_average {O : Type} (name : String)
    (subNames : List String) (L : ℕ → ℚ) (subL : String → ℕ → ℚ)
    (lossAt : ℕ → ℕ → ℚ) (subAt : String → ℕ → ℕ → ℚ)
    (S g : ℕ) (optStep : O → O) (opt : O) (hg : 0 < g)
    (hdet : ∀ i < S, ∀ j < g, lossAt i j = L i)
    (hsub : ∀ n ∈ subNames, ∀ i < S, ∀ j < g, subAt n i j = subL n i) :
    (train_component name lossAt subNames subAt S g optStep opt).1 =
      (name ++ "/train/total_loss", ((List.range S).map L).sum / (S : ℚ)) ::
        subNames.map fun n =>
          (name ++ "/train/" ++ n,
            ((List.range S).map (subL n)).sum / (S : ℚ)) := by
  unfold train_component
  rw [accum_const_substeps lossAt L S g hg hdet]
  refine congrArg _ (List.map_congr_left fun n hn => ?_)
  rw [accum_const_substeps (subAt n) (subL n) S g hg (hsub n hn)]

/-- Witness for C5: a concrete run with `S = 2`, `g = 3`, per-step losses
`i + 1` and sub-loss `i`. -/
theorem train_component_loss_average_witness :
    (train_component (O := ℕ) "tokenizer" (fun i _ => (i : ℚ) + 1)
        ["commitment_loss"] (fun _ i _ => (i : ℚ)) 2 3 (fun o => o + 1) 0).1 =
      ("tokenizer" ++ "/train/total_loss",
          ((List.range 2).map fun i => (i : ℚ) + 1).sum / ((2 : ℕ) : ℚ)) ::
        ["commitment_loss"].map fun n =>
          ("tokenizer" ++ "/train/" ++ n,
            ((List.range 2).map fun i => (i : ℚ)).sum / ((2 : ℕ) : ℚ)) :=
  train_component_loss_average "tokenizer" ["commitment_loss"]
    (fun i => (i : ℚ) + 1) (fun _ i => (i : ℚ)) (fun i _ => (i : ℚ) + 1)
    (fun _ i _ => (i : ℚ)) 2 3 (fun o => o + 1) 0 (by decide)
    (fun _ _ _ _ => rfl) (fun _ _ _ _ _ _ => rfl)

/-- Claim C4: for each of the three components, when
`epoch ≤ start_after_epochs` the training phase leaves that component's
metrics dictionary empty and its optimizer state untouched (no optimization
step runs). -/
theorem train_agent_gated_component_inactive {O : Type}
    (tok wm ac : ComponentTrainArgs O) (epoch : ℕ) (oT oW oA : O) :
    (epoch ≤ tok.start_after_epochs →
      (train_agent tok wm ac epoch oT oW oA).metrics_tokenizer = [] ∧
        (train_agent tok wm ac epoch oT oW oA).optimizer_tokenizer = oT) ∧
    (epoch ≤ wm.start_after_epochs →
      (train_agent tok wm ac epoch oT oW oA).metrics_world_model = [] ∧
        (train_agent tok wm ac epoch oT oW oA).optimizer_world_model = oW) ∧
    (epoch ≤ ac.start_after_epochs →
      (train_agent tok wm ac epoch oT oW oA).metrics_actor_critic = [] ∧
        (train_agent tok wm ac epoch oT oW oA).optimizer_actor_critic = oA) := by
  refine ⟨fun h => ?_, fun h => ?_, fun h => ?_⟩ <;>
    simp [train_agent, Nat.not_lt.mpr h]

/-- Witness for C4: at epoch 1 with all `start_after_epochs = 5`, every
component is inactive. -/
theorem train_agent_gated_component_inactive_witness :
    ((train_agent ctaOne ctaOne ctaOne 1 0 0 0).metrics_tokenizer = [] ∧
      (train_agent ctaOne ctaOne ctaOne 1 0 0 0).optimizer_tokenizer = 0) ∧
    ((train_agent ctaOne ctaOne ctaOne 1 0 0 0).metrics_world_model = [] ∧
      (train_agent ctaOne ctaOne ctaOne 1 0 0 0).optimizer_world_model = 0) ∧
    ((train_agent ctaOne ctaOne ctaOne 1 0 0 0).metrics_actor_critic = [] ∧
      (train_agent ctaOne ctaOne ctaOne 1 0 0 0).optimizer_actor_critic = 0) :=
  ⟨(train_agent_gated_component_inactive ctaOne ctaOne ctaOne 1 0 0 0).1
      (by decide),
    (train_agent_gated_component_inactive ctaOne ctaOne ctaOne 1 0 0 0).2.1
      (by decide),
    (train_agent_gated_component_inactive ctaOne ctaOne ctaOne 1 0 0 0).2.2
      (by decide)⟩

theorem apply_writes_none_ok {A Op D : Type}
    (ws : List (CkptDir A Op D → CkptDir A Op D)) (d : CkptDir A Op D) :
    (apply_writes ws none d).2 = false := by
  induction ws generalizing d with
  | nil => rfl
  | cons w ws ih => simpa [apply_writes] using ih (w d)

theorem apply_writes_fault {A Op D : Type}
    (ws : List (CkptDir A Op D → CkptDir A Op D)) (k : ℕ) (d : CkptDir A Op D)
    (h : k < ws.length) : (apply_writes ws (some k) d).2 = true := by
  induction ws generalizing k d with
  | nil => simp at h
  | cons w ws ih =>
    cases k with
    | zero => rfl
    | succ k => simpa [apply_writes] using ih k (w d) (by simpa using h)

/-- Claim C2: with no leftover backup, `save_checkpoint` first copies the
checkpoint directory (minus the dataset subtree) to the backup location;
if any write of `_save_checkpoint` raises, the backup is still on disk in
the resulting state (it is deleted only on the all-writes-succeeded
path). -/
theorem save_checkpoint_backup_retained_on_failure {A Op D : Type}
    (tr : TrainerCkpt A Op D) (epoch : ℕ) (save_agent_only : Bool)
    (fs : CkptFS A Op D) (h0 : fs.tmp_backup = none) :
    (∀ k, k < (ckpt_writes tr epoch save_agent_only).length →
      (save_checkpoint tr epoch save_agent_only (some k) fs).1.tmp_backup =
          some (copy_without_dataset fs.ckpt) ∧
        (save_checkpoint tr epoch save_agent_only (some k) fs).2 =
          SaveOutcome.writeError) ∧
    ((save_checkpoint tr epoch save_agent_only none fs).2 = SaveOutcome.ok ∧
      (save_checkpoint tr epoch save_agent_only none fs).1.tmp_backup = none) := by
  constructor
  · intro k hk
    have hr := apply_writes_fault (ckpt_writes tr epoch save_agent_only) k
      fs.ckpt hk
    simp [save_checkpoint, h0, hr]
  · have hr := apply_writes_none_ok (ckpt_writes tr epoch save_agent_only)
      fs.ckpt
    simp [save_checkpoint, h0, hr]

/-- Witness for C2: a concrete interrupted save (failure at the third
write) keeps the backup; an uninterrupted one removes it. -/
theorem save_checkpoint_backup_retained_on_failure_witness :
    ((save_checkpoint trOne 7 false (some 2) fsClean).1.tmp_backup =
        some (copy_without_dataset fsClean.ckpt) ∧
      (save_checkpoint trOne 7 false (some 2) fsClean).2 =
        SaveOutcome.writeError) ∧
    ((save_checkpoint trOne 7 false none fsClean).2 = SaveOutcome.ok ∧
      (save_checkpoint trOne 7 false none fsClean).1.tmp_backup = none) :=
  ⟨(save_checkpoint_backup_retained_on_failure trOne 7 false fsClean rfl).1 2
      (by decide),
    (save_checkpoint_backup_retained_on_failure trOne 7 false fsClean rfl).2⟩

/-- Claim C3: a full (`save_agent_only = false`) uninterrupted save at
epoch `E` followed by `load_checkpoint` yields `start_epoch = E + 1`, the
three saved optimizer states, and a training Batch Source whose
stored-episode count equals the pre-save count. -/
theorem checkpoint_round_trip {A Op D : Type} (tr : TrainerCkpt A Op D)
    (E : ℕ) (fs : CkptFS A Op D) (h0 : fs.tmp_backup = none) (count : D → ℕ) :
    ∃ ld, load_checkpoint tr.evaluation_should
        (save_checkpoint tr E false none fs).1 = some ld ∧
      ld.start_epoch = E + 1 ∧
      ld.agent = tr.agent ∧
      ld.optimizer_tokenizer = tr.optimizer_tokenizer ∧
      ld.optimizer_world_model = tr.optimizer_world_model ∧
      ld.optimizer_actor_critic = tr.optimizer_actor_critic ∧
      ld.train_dataset = tr.train_dataset ∧
      count ld.train_dataset = count tr.train_dataset := by
  refine ⟨⟨E + 1, tr.agent, tr.optimizer_tokenizer, tr.optimizer_world_model,
    tr.optimizer_actor_critic, tr.train_dataset,
    if tr.evaluation_should then some tr.num_seen_episodes_test else none⟩,
    ?_, rfl, rfl, rfl, rfl, rfl, rfl, rfl⟩
  cases hb : tr.evaluation_should <;>
    simp [save_checkpoint, h0, ckpt_writes, apply_writes, load_checkpoint, hb]

/-- Witness for C3: round trip of the concrete state `trOne` at epoch 5. -/
theorem checkpoint_round_trip_witness :
    ∃ ld, load_checkpoint trOne.evaluation_should
        (save_checkpoint trOne 5 false none fsClean).1 = some ld ∧
      ld.start_epoch = 5 + 1 ∧
      ld.agent = trOne.agent ∧
      ld.optimizer_tokenizer = trOne.optimizer_tokenizer ∧
      ld.optimizer_world_model = trOne.optimizer_world_model ∧
      ld.optimizer_actor_critic = trOne.optimizer_actor_critic ∧
      ld.train_dataset = trOne.train_dataset ∧
      (fun d => d) ld.train_dataset = (fun d => d) trOne.train_dataset :=
  checkpoint_round_trip trOne 5 fsClean rfl (fun d => d)

/-- Claim C10: when a backup from a previously interrupted save is still
present at the fixed working-directory-relative path `checkpoints_tmp`,
`shutil.copytree` raises `FileExistsError` before any checkpoint artifact
is written, leaving the primary checkpoint unchanged. -/
theorem save_checkpoint_fails_fast_on_stale_backup {A Op D : Type}
    (tr : TrainerCkpt A Op D) (epoch : ℕ) (save_agent_only : Bool)
    (fail : Option ℕ) (fs : CkptFS A Op D) (b : CkptDir A Op D)
    (h : fs.tmp_backup = some b) :
    save_checkpoint tr epoch save_agent_only fail fs =
        (fs, SaveOutcome.fileExistsError) ∧
      (save_checkpoint tr epoch save_agent_only fail fs).1.ckpt = fs.ckpt ∧
      tmp_checkpoint_dir = "checkpoints_tmp" := by
  refine ⟨?_, ?_, rfl⟩ <;> simp [save_checkpoint, h]

/-- Witness for C10: a concrete stale-backup filesystem. -/
theorem save_checkpoint_fails_fast_on_stale_backup_witness :
    save_checkpoint trOne 3 true none fsStale =
        (fsStale, SaveOutcome.fileExistsError) ∧
      (save_checkpoint trOne 3 true none fsStale).1.ckpt = fsStale.ckpt ∧
      tmp_checkpoint_dir = "checkpoints_tmp" :=
  save_checkpoint_fails_fast_on_stale_backup trOne 3 true none fsStale
    ckptEmpty rfl

/-- Claim C8: construction of the trainer succeeds exactly when at least
one of training and evaluation is enabled; with both disabled it raises the
configuration assertion before the epoch loop can run. -/
theorem trainer_construct_mode_assertion (cfg : TopLevelCfg) :
    ((trainer_construct cfg).isOk = true ↔
      (cfg.training_should || cfg.evaluation_should) = true) ∧
    (trainer_construct cfg = Except.error InitError.assertionFailed ↔
      cfg.training_should = false ∧ cfg.evaluation_should = false) := by
  rcases cfg with ⟨t, v⟩
  cases t <;> cases v <;>
    simp [trainer_construct, Except.isOk, Except.toBool]

theorem zip4_map {α β γ δ ε : Type} (f : ε → α) (g : ε → β) (h : ε → γ)
    (k : ε → δ) (l : List ε) :
    zip4 (l.map f) (l.map g) (l.map h) (l.map k) =
      l.map fun x => (f x, g x, h x, k x) := by
  induction l with
  | nil => rfl
  | cons x xs ih => simp [zip4, ih]

theorem enum_map_index {α β : Type} (l : List α) (F : ℕ → β) :
    (l.enum.map fun p => F p.1) = (List.range l.length).map F := by
  have h1 : (l.enum.map fun p => F p.1) = (l.enum.map Prod.fst).map F := by
    rw [List.map_map]; rfl
  rw [h1, List.enum_map_fst]

theorem inspect_imagination_ids_formula (im : ImaginationArgs) (epoch : ℕ) :
    (inspect_imagination im epoch).1.map (fun s => s.1) =
      (List.range im.contexts.length).map fun i : ℕ =>
        ((epoch : ℤ) - 1 - (im.ac_start_after_epochs : ℤ)) *
          (im.contexts.length : ℤ) + (i : ℤ) := by
  have hz : zip4 (imagine im).observations (imagine im).actions
      (imagine im).rewards (imagine im).ends =
      im.contexts.map fun c =>
        ((List.range im.horizon).map (im.obs_at c),
          (List.range im.horizon).map (im.act_at c),
          (List.range im.horizon).map (im.rew_at c),
          (List.range im.horizon).map (im.end_at c)) :=
    zip4_map _ _ _ _ im.contexts
  have hlen : (zip4 (imagine im).observations (imagine im).actions
      (imagine im).rewards (imagine im).ends).length = im.contexts.length := by
    rw [hz, List.length_map]
  have hobs : (imagine im).observations.length = im.contexts.length := by
    simp [imagine]
  have h1 : (inspect_imagination im epoch).1.map (fun s => s.1) =
      (zip4 (imagine im).observations (imagine im).actions
        (imagine im).rewards (imagine im).ends).enum.map fun p =>
          ((epoch : ℤ) - 1 - (im.ac_start_after_epochs : ℤ)) *
            ((imagine im).observations.length : ℤ) + (p.1 : ℤ) := by
    simp only [inspect_imagination, List.map_map]
    rfl
  rw [h1]
  refine (enum_map_index (zip4 (imagine im).observations (imagine im).actions
      (imagine im).rewards (imagine im).ends)
      (fun i : ℕ => ((epoch : ℤ) - 1 - (im.ac_start_after_epochs : ℤ)) *
        ((imagine im).observations.length : ℤ) + (i : ℤ))).trans ?_
  rw [hlen, hobs]

theorem inspect_imagination_saves_length (im : ImaginationArgs) (epoch : ℕ) :
    (inspect_imagination im epoch).1.length = im.contexts.length := by
  have h := congrArg List.length (inspect_imagination_ids_formula im epoch)
  simpa using h

/-- Claim C6: an inspection call on a starting batch of `N` contexts
persists exactly `N` episode records; the record at within-batch index `i`
gets identifier `(epoch - 1 - actor_critic.start_after_epochs) * N + i`;
identifiers strictly increase within one call and across successive calls
(later epoch) of the same session. -/
theorem inspect_imagination_record_ids (im : ImaginationArgs) (N : ℕ)
    (hN : im.contexts.length = N) :
    (∀ epoch, (inspect_imagination im epoch).1.length = N) ∧
    (∀ epoch, (inspect_imagination im epoch).1.map (fun s => s.1) =
      (List.range N).map fun i : ℕ =>
        ((epoch : ℤ) - 1 - (im.ac_start_after_epochs : ℤ)) * (N : ℤ) + (i : ℤ)) ∧
    (∀ epoch,
      ((inspect_imagination im epoch).1.map (fun s => s.1)).Pairwise (· < ·)) ∧
    (∀ e1 e2 : ℕ, e1 < e2 →
      ∀ a ∈ (inspect_imagination im e1).1.map (fun s => s.1),
      ∀ b ∈ (inspect_imagination im e2).1.map (fun s => s.1), a < b) := by
  have hids : ∀ epoch, (inspect_imagination im epoch).1.map (fun s => s.1) =
      (List.range N).map fun i : ℕ =>
        ((epoch : ℤ) - 1 - (im.ac_start_after_epochs : ℤ)) * (N : ℤ) + (i : ℤ) := by
    intro epoch
    rw [inspect_imagination_ids_formula, hN]
  refine ⟨fun epoch => ?_, hids, fun epoch => ?_, fun e1 e2 h12 a ha b hb => ?_⟩
  · have := congrArg List.length (hids epoch)
    simpa using this
  · rw [hids epoch]
    exact List.Pairwise.map _
      (fun i j hij => add_lt_add_left (Int.ofNat_lt.mpr hij) _)
      (List.pairwise_lt_range N)
  · rw [hids e1] at ha
    rw [hids e2] at hb
    obtain ⟨i, hi, rfl⟩ := List.mem_map.mp ha
    obtain ⟨j, hj, rfl⟩ := List.mem_map.mp hb
    have hiN : (i : ℤ) < (N : ℤ) := Int.ofNat_lt.mpr (List.mem_range.mp hi)
    have hj0 : (0 : ℤ) ≤ (j : ℤ) := Int.ofNat_nonneg j
    have hstep : ((e1 : ℤ) - 1 - (im.ac_start_after_epochs : ℤ)) + 1 ≤
        (e2 : ℤ) - 1 - (im.ac_start_after_epochs : ℤ) := by omega
    have hN0 : (0 : ℤ) ≤ (N : ℤ) := Int.ofNat_nonneg N
    calc ((e1 : ℤ) - 1 - (im.ac_start_after_epochs : ℤ)) * (N : ℤ) + (i : ℤ)
        < ((e1 : ℤ) - 1 - (im.ac_start_after_epochs : ℤ)) * (N : ℤ) + (N : ℤ) :=
          add_lt_add_left hiN _
      _ = (((e1 : ℤ) - 1 - (im.ac_start_after_epochs : ℤ)) + 1) * (N : ℤ) := by
          ring
      _ ≤ ((e2 : ℤ) - 1 - (im.ac_start_after_epochs : ℤ)) * (N : ℤ) :=
          mul_le_mul_of_nonneg_right hstep hN0
      _ ≤ ((e2 : ℤ) - 1 - (im.ac_start_after_epochs : ℤ)) * (N : ℤ) + (j : ℤ) :=
          le_add_of_nonneg_right hj0

/-- Witness for C6: the two-context scenario at epochs 3 and 4. -/
theorem inspect_imagination_record_ids_witness :
    (inspect_imagination imArgsTwo 3).1.length = 2 ∧
      (inspect_imagination imArgsTwo 3).1.map (fun s => s.1) = [2, 3] ∧
      ∃ a ∈ (inspect_imagination imArgsTwo 3).1.map (fun s => s.1),
        ∃ b ∈ (inspect_imagination imArgsTwo 4).1.map (fun s => s.1), a < b := by
  have h := inspect_imagination_record_ids imArgsTwo 2 rfl
  refine ⟨h.1 3, (h.2.1 3).trans (by decide), 2, ?_, 4, ?_,
    h.2.2.2 3 4 (by decide) 2 ?_ 4 ?_⟩ <;>
    · rw [h.2.1 _] ; decide

theorem string_head_append (x y : String) (c : Char)
    (h : x.data.head? = some c) : (x ++ y).data.head? = some c := by
  rw [String.data_append, List.head?_append, h]
  rfl

theorem eval_component_key_head {B : Type} (name : String) (lossOf : B → ℚ)
    (subNames : List String) (subOf : String → B → ℚ) (batches : List B)
    (c : Char) (hc : name.data.head? = some c) (m : List (String × ℚ))
    (hm : eval_component name lossOf subNames subOf batches = Except.ok m) :
    ∀ kv ∈ m, kv.1.data.head? = some c := by
  simp only [eval_component] at hm
  split at hm
  · exact absurd hm (by simp)
  · intro kv hkv
    have hm' := Except.ok.inj hm
    rw [← hm'] at hkv
    rcases List.mem_cons.mp hkv with h1 | h2
    · rw [h1]
      exact string_head_append name _ c hc
    · obtain ⟨n, _, rfl⟩ := List.mem_map.mp h2
      exact string_head_append (name ++ "/eval/") n c
        (string_head_append name _ c hc)

theorem inspect_imagination_log_keys (im : ImaginationArgs) (epoch : ℕ) :
    ∀ entry ∈ (inspect_imagination im epoch).2, ∀ kv ∈ entry,
      kv.1.data.head? = some 'i' := by
  intro entry he kv hkv
  simp only [inspect_imagination] at he
  obtain ⟨s, _, rfl⟩ := List.mem_map.mp he
  simp only [List.mem_cons, List.not_mem_nil, or_false] at hkv
  rcases hkv with h | h | h | h <;> · rw [h]; rfl

/-- Claim C1 (amended): past the actor-critic evaluation gate,
`inspect_imagination` computes non-empty per-episode metric dictionaries
whose every key lives in the `imagination/` namespace, and persists the
episode records — but `eval_agent` discards the returned dictionaries, so
none of the metrics it hands to the epoch loop for logging carries an
`imagination/` name. -/
theorem eval_agent_discards_imagination_metrics {B : Type}
    (cfg : EvalSettingsCfg) (epoch : ℕ) (tok wm : EvalComponentArgs B)
    (im : ImaginationArgs) (hgate : cfg.ac_start_after_epochs < epoch)
    (hc : im.contexts ≠ []) :
    (inspect_imagination im epoch).2 ≠ [] ∧
    (∀ entry ∈ (inspect_imagination im epoch).2, ∀ kv ∈ entry,
      kv.1.data.head? = some 'i') ∧
    (∀ r, eval_agent cfg epoch tok wm im = Except.ok r →
      r.2 = (inspect_imagination im epoch).1 ∧
      ∀ m ∈ r.1, ∀ kv ∈ m, kv.1.data.head? ≠ some 'i') := by
  refine ⟨?_, inspect_imagination_log_keys im epoch, ?_⟩
  · have hlen := inspect_imagination_saves_length im epoch
    intro hnil
    have : (inspect_imagination im epoch).2.length =
        (inspect_imagination im epoch).1.length := by
      simp [inspect_imagination]
    rw [hnil, hlen] at this
    exact hc (List.eq_nil_of_length_eq_zero this.symm)
  · intro r hr
    unfold eval_agent at hr
    have htok : ∀ (mt : List (String × ℚ)),
        (if cfg.tokenizer_start_after_epochs < epoch
          then eval_component "tokenizer" tok.lossOf tok.subNames tok.subOf
            tok.batches
          else Except.ok []) = Except.ok mt →
        ∀ kv ∈ mt, kv.1.data.head? = some 't' := by
      intro mt hmt
      split at hmt
      · exact eval_component_key_head "tokenizer" tok.lossOf tok.subNames
          tok.subOf tok.batches 't' rfl mt hmt
      · rw [← Except.ok.inj hmt]
        intro kv hkv
        exact absurd hkv (List.not_mem_nil kv)
    have hwm : ∀ (mw : List (String × ℚ)),
        (if cfg.world_model_start_after_epochs < epoch
          then eval_component "world_model" wm.lossOf wm.subNames wm.subOf
            wm.batches
          else Except.ok []) = Except.ok mw →
        ∀ kv ∈ mw, kv.1.data.head? = some 'w' := by
      intro mw hmw
      split at hmw
      · exact eval_component_key_head "world_model" wm.lossOf wm.subNames
          wm.subOf wm.batches 'w' rfl mw hmw
      · rw [← Except.ok.inj hmw]
        intro kv hkv
        exact absurd hkv (List.not_mem_nil kv)
    rcases h1 : (if cfg.tokenizer_start_after_epochs < epoch
        then eval_component "tokenizer" tok.lossOf tok.subNames tok.subOf
          tok.batches
        else Except.ok []) with e1 | mt
    · rw [h1] at hr; exact absurd hr (by simp)
    rcases h2 : (if cfg.world_model_start_after_epochs < epoch
        then eval_component "world_model" wm.lossOf wm.subNames wm.subOf
          wm.batches
        else Except.ok []) with e2 | mw
    · rw [h1, h2] at hr; exact absurd hr (by simp)
    rw [h1, h2] at hr
    simp only [if_pos hgate] at hr
    have hr' := Except.ok.inj hr
    constructor
    · rw [← hr']
    · rw [← hr']
      intro m hm kv hkv
      simp only [List.mem_cons, List.not_mem_nil, or_false] at hm
      rcases hm with hm | hm
      · subst hm
        obtain ⟨kv0, hkv0, rfl⟩ := List.mem_map.mp hkv
        have := htok mt h1 kv0 hkv0
        rw [this]
        decide
      · subst hm
        obtain ⟨kv0, hkv0, rfl⟩ := List.mem_map.mp hkv
        have := hwm mw h2 kv0 hkv0
        rw [this]
        decide

/-- Witness for the amended C1: in the one-context scenario at epoch 1 the
inspector's metric dictionaries exist (non-empty) yet `eval_agent` returns
only dictionaries free of `imagination/` keys. -/
theorem eval_agent_discards_imagination_metrics_witness :
    (inspect_imagination imArgsOne 1).2 ≠ [] ∧
    (∀ entry ∈ (inspect_imagination imArgsOne 1).2, ∀ kv ∈ entry,
      kv.1.data.head? = some 'i') ∧
    (∀ r, eval_agent evalCfgOne 1 evalArgsNone evalArgsNone imArgsOne =
        Except.ok r →
      r.2 = (inspect_imagination imArgsOne 1).1 ∧
      ∀ m ∈ r.1, ∀ kv ∈ m, kv.1.data.head? ≠ some 'i') :=
  eval_agent_discards_imagination_metrics evalCfgOne 1 evalArgsNone
    evalArgsNone imArgsOne (by decide) (by decide)

/-- Claim C1 as stated is false on the code: at epoch 1 of an
evaluation-only run in which imagination inspection runs (actor-critic gate
open), the inspector computes one `imagination/`-named metrics dictionary,
yet the metrics the epoch loop logs are exactly two empty dictionaries and
the duration entry — the imagination dictionary is not among them (the
return value of `inspect_imagination` is discarded at the call site in
`eval_agent`). -/
theorem epoch_log_misses_imagination_metrics_cex :
    epoch_to_log false true [] [] [] evalCfgOne 1 evalArgsNone evalArgsNone
        imArgsOne 0 =
      Except.ok [[], [], [("duration", MetricValue.num 0)]] ∧
    (inspect_imagination imArgsOne 1).2 =
      [[("imagination/episode_return", MetricValue.num 0),
        ("imagination/episode_length", MetricValue.int 0),
        ("imagination/episode_num", MetricValue.int 0),
        ("imagination/action_histogram", MetricValue.hist [] 2)]] ∧
    ¬ ([("imagination/episode_return", MetricValue.num 0),
        ("imagination/episode_length", MetricValue.int 0),
        ("imagination/episode_num", MetricValue.int 0),
        ("imagination/action_histogram", MetricValue.hist [] 2)] ∈
      ([[], [], [("duration", MetricValue.num 0)]] : List MetricDict)) := by
  refine ⟨rfl, by decide, by decide⟩

end TrainerModel
